import Mathlib

/-!
A verification development for the x86 control core of the Jailhouse
partitioning hypervisor (`hypervisor/arch/x86/control.c`).

The per-CPU control block and every operation of the source file are
embedded as executable Lean definitions.  Collaborator subsystems
(virtualization extension `vcpu_*`, IOMMU, PCI, IOAPIC, APIC) are out of
scope of the source core; their calls are recorded in event traces and
their fallible results are passed in as oracle parameters, exactly where
the C code consumes an `int err`.  Error convention follows C: a result
is a failure iff it is nonzero.
-/

/-- The mutable per-CPU control-block fields of `struct per_cpu` that
`control.c` reads and writes (field names kept from the source). -/
structure PerCpu where
  suspend_cpu : Bool
  cpu_suspended : Bool
  shutdown_cpu : Bool
  init_signaled : Bool
  wait_for_sipi : Bool
  sipi_vector : Int
  failed : Bool
  flush_vcpu_caches : Bool
deriving DecidableEq

/-- A cell: identity (standing for the C pointer, used for the
`cell_added_removed != &root_cell` comparison), its CPU set, and the
`pm_timer_address` slot of its communication page. -/
structure Cell where
  cid : Nat
  cpu_set : List Nat
  comm_pm_timer_address : Nat
deriving DecidableEq

/-- Events: calls into the collaborator subsystems made by
`arch_cell_create` / `arch_cell_destroy`, each carrying the cell id the
C code passes as the `cell` argument. -/
inductive CellEv where
  | vcpuCellInit (cid : Nat)
  | vcpuCellExit (cid : Nat)
  | iommuCellInit (cid : Nat)
  | iommuCellExit (cid : Nat)
  | pciCellInit (cid : Nat)
  | pciCellExit (cid : Nat)
  | ioapicCellInit (cid : Nat)
  | ioapicCellExit (cid : Nat)
  | commPageWrite (cid : Nat) (pm_timer : Nat)
deriving DecidableEq

/-- Embedding of `arch_cell_create` (control.c:33-61).  `rVcpu`, `rIommu`, `rPci` are
the oracle results of `vcpu_cell_init`, `iommu_cell_init`,
`pci_cell_init`; `pm_timer_address` is
`system_config->platform_info.x86.pm_timer_address`.  Returns the C
return value, the (possibly updated) cell, and the ordered trace of
collaborator calls. -/
def arch_cell_create (rVcpu rIommu rPci : Int) (pm_timer_address : Nat)
    (cell : Cell) : Int × Cell × List CellEv :=
  if rVcpu ≠ 0 then
    (rVcpu, cell, [.vcpuCellInit cell.cid])
  else if rIommu ≠ 0 then
    (rIommu, cell, [.vcpuCellInit cell.cid, .iommuCellInit cell.cid,
                    .vcpuCellExit cell.cid])
  else if rPci ≠ 0 then
    (rPci, cell, [.vcpuCellInit cell.cid, .iommuCellInit cell.cid,
                  .pciCellInit cell.cid, .iommuCellExit cell.cid,
                  .vcpuCellExit cell.cid])
  else
    (0, { cell with comm_pm_timer_address := pm_timer_address },
     [.vcpuCellInit cell.cid, .iommuCellInit cell.cid,
      .pciCellInit cell.cid, .ioapicCellInit cell.cid,
      .commPageWrite cell.cid pm_timer_address])

/-- Embedding of `arch_cell_destroy` (control.c:90-96): unconditional teardown in
reverse creation order. -/
def arch_cell_destroy (cell : Cell) : List CellEv :=
  [.ioapicCellExit cell.cid, .pciCellExit cell.cid,
   .iommuCellExit cell.cid, .vcpuCellExit cell.cid]

/-- Events: calls into the two translation subsystems made by the
memory-region transactions. -/
inductive MemEv where
  | vcpuMapRegion
  | vcpuUnmapRegion
  | iommuMapRegion
  | iommuUnmapRegion
deriving DecidableEq

/-- Embedding of `arch_map_memory_region` (control.c:63-76).  `rVcpuMap` and
`rIommuMap` are the oracle results of `vcpu_map_memory_region` and
`iommu_map_memory_region` for the given cell and region.  On IOMMU
failure the vcpu mapping is rolled back and the IOMMU error returned
(the rollback's own result is discarded, as in the C code). -/
def arch_map_memory_region (rVcpuMap rIommuMap : Int) : Int × List MemEv :=
  if rVcpuMap ≠ 0 then
    (rVcpuMap, [.vcpuMapRegion])
  else if rIommuMap ≠ 0 then
    (rIommuMap, [.vcpuMapRegion, .iommuMapRegion, .vcpuUnmapRegion])
  else
    (0, [.vcpuMapRegion, .iommuMapRegion])

/-- Embedding of `arch_unmap_memory_region` (control.c:78-88).  IOMMU unmap first; on
its failure return immediately without touching the vcpu mapping,
otherwise return the vcpu unmap's result. -/
def arch_unmap_memory_region (rIommuUnmap rVcpuUnmap : Int) :
    Int × List MemEv :=
  if rIommuUnmap ≠ 0 then
    (rIommuUnmap, [.iommuUnmapRegion])
  else
    (rVcpuUnmap, [.iommuUnmapRegion, .vcpuUnmapRegion])

/-- Events on the remote side of the CPU-lifecycle operations: writes to
the target's control block and the signals/barriers surrounding them. -/
inductive REv where
  | lockSetSuspendFlag
  | nmiIpi
  | spinSawSuspended
  | memBarrier
  | clearSuspendFlag
  | setSipiVectorField
  | setInitSignaledFlag
  | setShutdownFlag
deriving DecidableEq

/-- Embedding of `arch_suspend_cpu` (control.c:128-146).  Under the target's lock:
set `suspend_cpu`, capture `cpu_suspended`.  If not already suspended,
send one NMI and spin on the target's `cpu_suspended`; `obs` is the
sequence of values this spin reads (they are written concurrently by
the target core).  `none` means the spin has not yet observed `true`
(the call has not returned); `some` carries the target-state writes
performed by this call and the event trace. -/
def arch_suspend_cpu (t : PerCpu) (obs : List Bool) :
    Option (PerCpu × List REv) :=
  let t1 := { t with suspend_cpu := true }
  if t.cpu_suspended then
    some (t1, [.lockSetSuspendFlag])
  else if obs.contains true then
    some (t1, [.lockSetSuspendFlag, .nmiIpi, .spinSawSuspended])
  else
    none

/-- Embedding of `arch_resume_cpu` (control.c:148-154): memory barrier, then clear
`suspend_cpu`. -/
def arch_resume_cpu (t : PerCpu) : PerCpu × List REv :=
  ({ t with suspend_cpu := false }, [.memBarrier, .clearSuspendFlag])

/-- Modelled from the spec: the "boot pseudo-vector"
`APIC_BSP_PSEUDO_SIPI`, defined in the x86 APIC header which is not
part of the source core.  Per the spec it is a pending startup vector
(therefore non-negative, distinct from the `-1` "none" sentinel); the
concrete value is irrelevant to the control logic. -/
def APIC_BSP_PSEUDO_SIPI : Int := 256

/-- Embedding of `arch_reset_cpu` (control.c:156-161): store the boot pseudo-vector
into `sipi_vector`, then resume. -/
def arch_reset_cpu (t : PerCpu) : PerCpu × List REv :=
  let t1 := { t with sipi_vector := APIC_BSP_PSEUDO_SIPI }
  let r := arch_resume_cpu t1
  (r.1, .setSipiVectorField :: r.2)

/-- Embedding of `arch_park_cpu` (control.c:163-168): set `init_signaled`, then
resume. -/
def arch_park_cpu (t : PerCpu) : PerCpu × List REv :=
  let t1 := { t with init_signaled := true }
  let r := arch_resume_cpu t1
  (r.1, .setInitSignaledFlag :: r.2)

/-- Embedding of `arch_shutdown_cpu` (control.c:170-175): suspend the target, set
`shutdown_cpu`, resume it; `obs` is passed to the embedded
`arch_suspend_cpu` spin. -/
def arch_shutdown_cpu (t : PerCpu) (obs : List Bool) :
    Option (PerCpu × List REv) :=
  match arch_suspend_cpu t obs with
  | none => none
  | some (t1, e1) =>
    let t2 := { t1 with shutdown_cpu := true }
    let r := arch_resume_cpu t2
    some (r.1, e1 ++ [.setShutdownFlag] ++ r.2)

/-- The `enum x86_init_sipi` of the source. -/
inductive X86InitSipi where
  | X86_INIT
  | X86_SIPI
deriving DecidableEq

/-- Embedding of `x86_send_init_sipi` (control.c:177-199).  Under the target's lock:
an INIT takes effect only if the target is not in `wait_for_sipi`; a
SIPI takes effect only if it is.  Returns the new target state and the
`send_nmi` flag (the NMI is sent after unlock iff it is true). -/
def x86_send_init_sipi (t : PerCpu) (type : X86InitSipi)
    (sipi_vector : Int) : PerCpu × Bool :=
  match type with
  | .X86_INIT =>
    if !t.wait_for_sipi then
      ({ t with init_signaled := true }, true)
    else
      (t, false)
  | .X86_SIPI =>
    if t.wait_for_sipi then
      ({ t with sipi_vector := sipi_vector }, true)
    else
      (t, false)

/-- Embedding of `x86_enter_wait_for_sipi` (control.c:202-206), called with
`control_lock` held. -/
def x86_enter_wait_for_sipi (cpu_data : PerCpu) : PerCpu :=
  { cpu_data with init_signaled := false, wait_for_sipi := true }

/-- Events emitted by the owning core while it runs `x86_handle_events`:
calls into the APIC and vcpu collaborators and the final halt. -/
inductive Ev where
  | apicClear
  | vcpuExitCall
  | hltForever
  | vcpuTlbFlushLocal
  | vcpuParkCall
deriving DecidableEq

/-- Control points of `x86_handle_events` (control.c:208-262) at which
the owning core can be observed by other cores.  `looptop` is the head
of the do-while loop (lock held); `spinning` is the busy-wait on
`suspend_cpu` with `cpu_suspended` published and the lock released;
`spun` is the point right after the busy-wait exits, before the
`shutdown_cpu` check (lock not yet re-acquired); `post` is the
flush/park/return epilogue after the loop; `finished` means the call
has returned; `halted` is the terminal `hlt` loop of the shutdown
path. -/
inductive Phase where
  | looptop
  | spinning
  | spun
  | post
  | finished
  | halted
deriving DecidableEq

/-- A configuration of the owning core inside (or after) an
`x86_handle_events` call: control point, per-CPU control block, and the
local variable `sipi_vector` of the function (the eventual return
value, initialized to `-1`). -/
structure Config where
  ph : Phase
  s : PerCpu
  vec : Int
deriving DecidableEq

/-- Lines 234-244 of control.c: re-acquire the lock, clear
`cpu_suspended`, and if a startup vector is pending consume it —
delivering it into the local return variable only when the core is not
marked `failed` (only then is `wait_for_sipi` cleared); the pending
field is reset either way. -/
def x86_wait_exit (s : PerCpu) (vec : Int) : PerCpu × Int :=
  let s1 := { s with cpu_suspended := false }
  if s1.sipi_vector ≥ 0 then
    if !s1.failed then
      ({ s1 with wait_for_sipi := false, sipi_vector := -1 }, s1.sipi_vector)
    else
      ({ s1 with sipi_vector := -1 }, vec)
  else
    (s1, vec)

/-- One atomic step of the owning core inside `x86_handle_events`
(control.c:208-262).  Lock-held regions of the source are single steps;
the unlocked busy-wait and the unlocked `shutdown_cpu` check are their
own control points, so writes by other cores can be interleaved exactly
where the source allows them.  Returns the next configuration and the
collaborator calls made during the step. -/
def heLocalStep (c : Config) : Config × List Ev :=
  match c.ph with
  | .looptop =>
    if c.s.init_signaled && !c.s.suspend_cpu then
      (⟨.post, x86_enter_wait_for_sipi c.s, -1⟩, [])
    else
      (⟨.spinning, { c.s with cpu_suspended := true }, c.vec⟩, [])
  | .spinning =>
    if c.s.suspend_cpu then
      (c, [])
    else
      (⟨.spun, c.s, c.vec⟩, [])
  | .spun =>
    if c.s.shutdown_cpu then
      (⟨.halted, c.s, c.vec⟩, [.apicClear, .vcpuExitCall, .hltForever])
    else
      let r := x86_wait_exit c.s c.vec
      if r.1.init_signaled then
        (⟨.looptop, r.1, r.2⟩, [])
      else
        (⟨.post, r.1, r.2⟩, [])
  | .post =>
    (⟨.finished,
      (if c.s.flush_vcpu_caches then { c.s with flush_vcpu_caches := false }
       else c.s),
      c.vec⟩,
     (if c.s.flush_vcpu_caches then [Ev.vcpuTlbFlushLocal] else []) ++
     (if c.s.wait_for_sipi then [Ev.vcpuParkCall]
      else if c.vec ≥ 0 then [Ev.apicClear] else []))
  | .finished => (c, [])
  | .halted => (c, [])

/-- Run `n` steps of the owning core with no interference from other
cores, concatenating the emitted events.  `finished` and `halted` are
self-loops emitting nothing, so surplus fuel is harmless. -/
def heRun : Nat → Config → Config × List Ev
  | 0, c => (c, [])
  | n + 1, c =>
    let r := heLocalStep c
    let r2 := heRun n r.1
    (r2.1, r.2 ++ r2.2)

/-- An `x86_handle_events` call on entry state `s`, run for `fuel`
steps with no interference: starts at the top of the do-while loop with
the local return variable at `-1` (control.c:210). -/
def x86_handle_events (fuel : Nat) (s : PerCpu) : Config × List Ev :=
  heRun fuel ⟨.looptop, s, -1⟩

/-- The remote operations another core can apply to this core's control
block, at the granularity of their lock-held write sections.
`suspendFlag` and `shutdownFlag` are the two writes of
`arch_suspend_cpu` / `arch_shutdown_cpu`; `resume`, `reset`, `park` are
the corresponding `arch_*_cpu` bodies; `sendInit`/`sendSipi` are
`x86_send_init_sipi` (the INIT caller passes vector 0, which the
function ignores). -/
inductive Op where
  | suspendFlag
  | resume
  | reset
  | park
  | shutdownFlag
  | sendInit
  | sendSipi (v : Int)
deriving DecidableEq

/-- Effect of a remote operation on the target's control block. -/
def applyOp : Op → PerCpu → PerCpu
  | .suspendFlag, t => { t with suspend_cpu := true }
  | .resume, t => (arch_resume_cpu t).1
  | .reset, t => (arch_reset_cpu t).1
  | .park, t => (arch_park_cpu t).1
  | .shutdownFlag, t => { t with shutdown_cpu := true }
  | .sendInit, t => (x86_send_init_sipi t .X86_INIT 0).1
  | .sendSipi v, t => (x86_send_init_sipi t .X86_SIPI v).1

/-- One step of the whole system around one target core: either the
owning core takes a local `x86_handle_events` step, or a remote core
applies one lifecycle operation to the target's control block, or —
once a call has returned — the owning core's run loop calls
`x86_handle_events` again (fresh local return variable). -/
inductive SysStep : Config → Config → Prop where
  | localStep {c c' : Config} {evs : List Ev}
      (h : heLocalStep c = (c', evs)) : SysStep c c'
  | remote {c : Config} (op : Op) : SysStep c ⟨c.ph, applyOp op c.s, c.vec⟩
  | reinvoke {c : Config} (h : c.ph = .finished) :
      SysStep c ⟨.looptop, c.s, -1⟩

/-- Reachability in the interleaved system. -/
def Reach : Config → Config → Prop :=
  Relation.ReflTransGen SysStep

/-- The per-CPU control-block table (`per_cpu(cpu)` of the source),
indexed by CPU id. -/
def PerCpuTable : Type := Nat → PerCpu

/-- One iteration body of the commit loops: mark
`flush_vcpu_caches = true` on one CPU's control block. -/
def setFlushVcpuCaches (p : PerCpuTable) (cpu : Nat) : PerCpuTable :=
  fun c => if c = cpu then { p c with flush_vcpu_caches := true } else p c

/-- Embedding of `for_each_cpu_except(cpu, set, exception)` driving a loop body `f`:
visit every CPU of the set other than the exception. -/
def for_each_cpu_except (f : PerCpuTable → Nat → PerCpuTable)
    (cpu_set : List Nat) (exception : Nat) (p : PerCpuTable) : PerCpuTable :=
  (cpu_set.filter (fun c => c ≠ exception)).foldl f p

/-- Events of `arch_config_commit`: the caller's own TLB flush and the
three collaborator commit notifications, each carrying the id of
`cell_added_removed` (or `none` for the null pointer). -/
inductive CommitEv where
  | vcpuTlbFlush
  | iommuConfigCommit (cid : Option Nat)
  | pciConfigCommit (cid : Option Nat)
  | ioapicConfigCommit (cid : Option Nat)
deriving DecidableEq

/-- Embedding of `arch_config_commit` (control.c:99-116).  `root_cell` is the global
root cell, `cell_added_removed` the argument (a null pointer becomes
`none`; pointer comparison with `&root_cell` becomes comparison of cell
ids), `current_cpu` is `this_cpu_id()`.  Marks `flush_vcpu_caches` on
every root-cell CPU except the caller, then — if the argument is
non-null and not the root cell — on its CPUs except the caller; flushes
the caller's own translations and notifies IOMMU, PCI and IOAPIC, in
that order. -/
def arch_config_commit (root_cell : Cell) (cell_added_removed : Option Cell)
    (current_cpu : Nat) (p : PerCpuTable) : PerCpuTable × List CommitEv :=
  let p1 := for_each_cpu_except setFlushVcpuCaches root_cell.cpu_set
              current_cpu p
  let p2 :=
    match cell_added_removed with
    | some cell =>
      if cell.cid ≠ root_cell.cid then
        for_each_cpu_except setFlushVcpuCaches cell.cpu_set current_cpu p1
      else
        p1
    | none => p1
  let cid := cell_added_removed.map Cell.cid
  (p2, [.vcpuTlbFlush, .iommuConfigCommit cid, .pciConfigCommit cid,
        .ioapicConfigCommit cid])

/-- C3: `map_memory_region` maps via the virtualization extension first,
then the IOMMU, rolling back the vcpu mapping and returning the error
if the IOMMU step fails; `unmap_memory_region` unmaps via the IOMMU
first and, if that fails, returns the error without touching the vcpu
mapping (fail-closed). -/
theorem c3_map_unmap_transaction (rVcpuMap rIommuMap rIommuUnmap rVcpuUnmap : Int) :
    (rVcpuMap ≠ 0 →
      arch_map_memory_region rVcpuMap rIommuMap = (rVcpuMap, [.vcpuMapRegion])) ∧
    (rVcpuMap = 0 → rIommuMap ≠ 0 →
      arch_map_memory_region rVcpuMap rIommuMap =
        (rIommuMap, [.vcpuMapRegion, .iommuMapRegion, .vcpuUnmapRegion])) ∧
    (rVcpuMap = 0 → rIommuMap = 0 →
      arch_map_memory_region rVcpuMap rIommuMap =
        (0, [.vcpuMapRegion, .iommuMapRegion])) ∧
    (rIommuUnmap ≠ 0 →
      arch_unmap_memory_region rIommuUnmap rVcpuUnmap =
        (rIommuUnmap, [.iommuUnmapRegion])) ∧
    (rIommuUnmap = 0 →
      arch_unmap_memory_region rIommuUnmap rVcpuUnmap =
        (rVcpuUnmap, [.iommuUnmapRegion, .vcpuUnmapRegion])) := by
  refine ⟨?_, ?_, ?_, ?_, ?_⟩ <;> intros <;>
    simp_all [arch_map_memory_region, arch_unmap_memory_region]

/-- Witness for C3 at concrete collaborator results: a failing IOMMU map
(error -22) rolls the vcpu mapping back, a failing IOMMU unmap leaves
the vcpu mapping untouched. -/
theorem c3_map_unmap_transaction_witness :
    arch_map_memory_region 0 (-22) =
      (-22, [.vcpuMapRegion, .iommuMapRegion, .vcpuUnmapRegion]) ∧
    arch_unmap_memory_region (-22) 0 = (-22, [.iommuUnmapRegion]) :=
  ⟨(c3_map_unmap_transaction 0 (-22) (-22) 0).2.1 rfl (by decide),
   (c3_map_unmap_transaction 0 (-22) (-22) 0).2.2.2.1 (by decide)⟩

/-- C4: `create_cell` initializes vcpu context, IOMMU domain, PCI view,
then interrupt routing, in that order; a PCI failure unwinds IOMMU then
vcpu, an IOMMU failure unwinds only vcpu, each returning the error with
the cell untouched; success writes the platform timer address into the
cell's communication page and returns 0. -/
theorem c4_cell_create_ordered_rollback (rV rI rP : Int) (pm : Nat) (cell : Cell) :
    (rV ≠ 0 → arch_cell_create rV rI rP pm cell =
      (rV, cell, [.vcpuCellInit cell.cid])) ∧
    (rV = 0 → rI ≠ 0 → arch_cell_create rV rI rP pm cell =
      (rI, cell, [.vcpuCellInit cell.cid, .iommuCellInit cell.cid,
                  .vcpuCellExit cell.cid])) ∧
    (rV = 0 → rI = 0 → rP ≠ 0 → arch_cell_create rV rI rP pm cell =
      (rP, cell, [.vcpuCellInit cell.cid, .iommuCellInit cell.cid,
                  .pciCellInit cell.cid, .iommuCellExit cell.cid,
                  .vcpuCellExit cell.cid])) ∧
    (rV = 0 → rI = 0 → rP = 0 → arch_cell_create rV rI rP pm cell =
      (0, { cell with comm_pm_timer_address := pm },
       [.vcpuCellInit cell.cid, .iommuCellInit cell.cid,
        .pciCellInit cell.cid, .ioapicCellInit cell.cid,
        .commPageWrite cell.cid pm])) := by
  refine ⟨?_, ?_, ?_, ?_⟩ <;> intros <;> simp_all [arch_cell_create]

/-- Witness for C4: a PCI-step failure (error -12) on a concrete cell
exits the IOMMU domain and then the vcpu context; full rollback, error
returned, cell unchanged. -/
theorem c4_cell_create_ordered_rollback_witness :
    arch_cell_create 0 0 (-12) 7 ⟨3, [1, 2], 0⟩ =
      (-12, ⟨3, [1, 2], 0⟩,
       [.vcpuCellInit 3, .iommuCellInit 3, .pciCellInit 3,
        .iommuCellExit 3, .vcpuCellExit 3]) :=
  (c4_cell_create_ordered_rollback 0 0 (-12) 7 ⟨3, [1, 2], 0⟩).2.2.1
    rfl rfl (by decide)

/-- C5: `suspend(target)` sets `suspend_cpu` under the target's lock
(leaving every other field untouched) and captures `cpu_suspended` at
that moment; if the target was already suspended it returns with no
signal, otherwise it sends the NMI exactly once and returns only after
one of its reads of `cpu_suspended` observes `true`. -/
theorem c5_suspend_protocol (t : PerCpu) (obs : List Bool) :
    (∀ t' tr, arch_suspend_cpu t obs = some (t', tr) →
      t' = { t with suspend_cpu := true } ∧
      (t.cpu_suspended = true → tr.count .nmiIpi = 0) ∧
      (t.cpu_suspended = false →
        tr.count .nmiIpi = 1 ∧ obs.contains true = true)) ∧
    (t.cpu_suspended = false → obs.contains true = false →
      arch_suspend_cpu t obs = none) := by
  constructor
  · intro t' tr h
    unfold arch_suspend_cpu at h
    by_cases hc : t.cpu_suspended
    · rw [if_pos hc] at h
      simp only [Option.some.injEq, Prod.mk.injEq] at h
      obtain ⟨h1, h2⟩ := h
      subst h1 h2
      refine ⟨rfl, fun _ => by decide, fun hf => ?_⟩
      rw [hc] at hf
      cases hf
    · rw [if_neg hc] at h
      by_cases ho : obs.contains true
      · rw [if_pos ho] at h
        simp only [Option.some.injEq, Prod.mk.injEq] at h
        obtain ⟨h1, h2⟩ := h
        subst h1 h2
        refine ⟨rfl, fun hc2 => ?_, fun _ => ⟨by decide, ho⟩⟩
        rw [hc2] at hc
        cases hc rfl
      · rw [if_neg ho] at h
        cases h
  · intro hc ho
    have ho' : true ∉ obs := by simpa using ho
    unfold arch_suspend_cpu
    rw [if_neg (by simp [hc]), if_neg (by simpa using ho')]

/-- Witness for C5, both branches: a not-yet-suspended target whose
`cpu_suspended` is observed `true` on the second read gets exactly one
NMI; an unobserved target means the call has not returned. -/
theorem c5_suspend_protocol_witness :
    ((⟨false, false, false, false, false, -1, false, false⟩ : PerCpu).cpu_suspended = false →
      ([false, true] : List Bool).contains true = true →
      True) ∧
    arch_suspend_cpu ⟨false, false, false, false, false, -1, false, false⟩ [false, false] = none ∧
    (∀ t' tr,
      arch_suspend_cpu ⟨false, false, false, false, false, -1, false, false⟩ [false, true] = some (t', tr) →
      tr.count .nmiIpi = 1) := by
  refine ⟨fun _ _ => trivial, ?_, ?_⟩
  · exact (c5_suspend_protocol ⟨false, false, false, false, false, -1, false, false⟩ [false, false]).2 rfl (by decide)
  · intro t' tr h
    exact (((c5_suspend_protocol ⟨false, false, false, false, false, -1, false, false⟩ [false, true]).1 t' tr h).2.2 rfl).1

/-- Pointwise effect of the commit marking loop: a CPU's block gets
`flush_vcpu_caches := true` iff it is visited, and is untouched
otherwise. -/
theorem foldl_setFlushVcpuCaches (l : List Nat) (p : PerCpuTable) (c : Nat) :
    (l.foldl setFlushVcpuCaches p) c =
      if c ∈ l then { p c with flush_vcpu_caches := true } else p c := by
  induction l generalizing p with
  | nil => simp
  | cons a l ih =>
    simp only [List.foldl_cons, ih, List.mem_cons]
    by_cases h1 : c = a <;> by_cases h2 : c ∈ l <;>
      simp [setFlushVcpuCaches, h1, h2]

/-- Pointwise effect of `for_each_cpu_except` with the flush-marking
body. -/
theorem for_each_cpu_except_setFlush (cpu_set : List Nat) (exception : Nat)
    (p : PerCpuTable) (c : Nat) :
    (for_each_cpu_except setFlushVcpuCaches cpu_set exception p) c =
      if c ∈ cpu_set ∧ c ≠ exception
      then { p c with flush_vcpu_caches := true } else p c := by
  unfold for_each_cpu_except
  rw [foldl_setFlushVcpuCaches]
  by_cases h : c ∈ cpu_set ∧ c ≠ exception <;> simp_all

/-- C6: `config_commit` marks `flush_vcpu_caches` on exactly the
root-cell CPUs other than the caller plus — when the changed cell is
non-null and not the root cell — that cell's CPUs other than the
caller; it never touches any other field, leaves the caller's block
completely unchanged, flushes the caller's own translations, and then
notifies IOMMU, PCI and IOAPIC, in that order, with the changed cell
(or null). -/
theorem c6_config_commit_marks_and_notifies (root_cell : Cell)
    (cell_added_removed : Option Cell) (current_cpu : Nat)
    (p : PerCpuTable) (c : Nat) :
    ((((arch_config_commit root_cell cell_added_removed current_cpu p).1 c).flush_vcpu_caches = true ↔
       ((p c).flush_vcpu_caches = true ∨
        (c ≠ current_cpu ∧
         (c ∈ root_cell.cpu_set ∨
          ∃ cell, cell_added_removed = some cell ∧
            cell.cid ≠ root_cell.cid ∧ c ∈ cell.cpu_set)))) ∧
     { (arch_config_commit root_cell cell_added_removed current_cpu p).1 c with
         flush_vcpu_caches := false } =
       { p c with flush_vcpu_caches := false } ∧
     (arch_config_commit root_cell cell_added_removed current_cpu p).1 current_cpu
       = p current_cpu) ∧
    (arch_config_commit root_cell cell_added_removed current_cpu p).2 =
      [.vcpuTlbFlush,
       .iommuConfigCommit (cell_added_removed.map Cell.cid),
       .pciConfigCommit (cell_added_removed.map Cell.cid),
       .ioapicConfigCommit (cell_added_removed.map Cell.cid)] := by
  have key : ∀ x,
      (arch_config_commit root_cell cell_added_removed current_cpu p).1 x =
        if (x ∈ root_cell.cpu_set ∧ x ≠ current_cpu) ∨
           (∃ cell, cell_added_removed = some cell ∧
             cell.cid ≠ root_cell.cid ∧ x ∈ cell.cpu_set ∧ x ≠ current_cpu)
        then { p x with flush_vcpu_caches := true } else p x := by
    intro x
    cases cell_added_removed with
    | none =>
      have hshow : (arch_config_commit root_cell none current_cpu p).1 =
          for_each_cpu_except setFlushVcpuCaches root_cell.cpu_set
            current_cpu p := rfl
      rw [hshow, for_each_cpu_except_setFlush]
      by_cases h : x ∈ root_cell.cpu_set ∧ x ≠ current_cpu
      · rw [if_pos h, if_pos (Or.inl h)]
      · rw [if_neg h, if_neg]
        rintro (hh | ⟨cell, hcell, h2⟩)
        · exact h hh
        · cases hcell
    | some cell =>
      have hshow : (arch_config_commit root_cell (some cell) current_cpu p).1 =
          if cell.cid ≠ root_cell.cid
          then for_each_cpu_except setFlushVcpuCaches cell.cpu_set current_cpu
                 (for_each_cpu_except setFlushVcpuCaches root_cell.cpu_set
                   current_cpu p)
          else for_each_cpu_except setFlushVcpuCaches root_cell.cpu_set
                 current_cpu p := rfl
      rw [hshow]
      by_cases hroot : cell.cid ≠ root_cell.cid
      · rw [if_pos hroot, for_each_cpu_except_setFlush,
            for_each_cpu_except_setFlush]
        by_cases h2 : x ∈ cell.cpu_set ∧ x ≠ current_cpu
        · rw [if_pos h2]
          rw [if_pos (Or.inr ⟨cell, rfl, hroot, h2.1, h2.2⟩)]
          by_cases h1 : x ∈ root_cell.cpu_set ∧ x ≠ current_cpu
          · rw [if_pos h1]
          · rw [if_neg h1]
        · rw [if_neg h2]
          by_cases h1 : x ∈ root_cell.cpu_set ∧ x ≠ current_cpu
          · rw [if_pos h1, if_pos (Or.inl h1)]
          · rw [if_neg h1, if_neg]
            rintro (hh | ⟨cell2, hcell2, hh2⟩)
            · exact h1 hh
            · cases hcell2
              exact h2 ⟨hh2.2.1, hh2.2.2⟩
      · rw [if_neg hroot, for_each_cpu_except_setFlush]
        by_cases h1 : x ∈ root_cell.cpu_set ∧ x ≠ current_cpu
        · rw [if_pos h1, if_pos (Or.inl h1)]
        · rw [if_neg h1, if_neg]
          rintro (hh | ⟨cell2, hcell2, hh2⟩)
          · exact h1 hh
          · cases hcell2
            exact hroot hh2.1
  refine ⟨⟨?_, ?_, ?_⟩, rfl⟩
  · rw [key c]
    by_cases h : (c ∈ root_cell.cpu_set ∧ c ≠ current_cpu) ∨
        (∃ cell, cell_added_removed = some cell ∧
          cell.cid ≠ root_cell.cid ∧ c ∈ cell.cpu_set ∧ c ≠ current_cpu)
    · rw [if_pos h]
      constructor
      · intro _
        rcases h with h | ⟨cell, hcell, hne, hmem, hnc⟩
        · exact Or.inr ⟨h.2, Or.inl h.1⟩
        · exact Or.inr ⟨hnc, Or.inr ⟨cell, hcell, hne, hmem⟩⟩
      · intro _
        rfl
    · rw [if_neg h]
      constructor
      · exact fun hf => Or.inl hf
      · rintro (hf | ⟨hnc, hm | ⟨cell, hcell, hne, hmem⟩⟩)
        · exact hf
        · exact absurd (Or.inl ⟨hm, hnc⟩) h
        · exact absurd (Or.inr ⟨cell, hcell, hne, hmem, hnc⟩) h
  · rw [key c]
    by_cases h : (c ∈ root_cell.cpu_set ∧ c ≠ current_cpu) ∨
        (∃ cell, cell_added_removed = some cell ∧
          cell.cid ≠ root_cell.cid ∧ c ∈ cell.cpu_set ∧ c ≠ current_cpu)
    · rw [if_pos h]
    · rw [if_neg h]
  · rw [key current_cpu]
    rw [if_neg]
    rintro (⟨h1, hne⟩ | ⟨cell, hcell, hne2, hmem, hne⟩) <;> exact hne rfl

/-- C7 counterexample: a target that is not awaiting a startup vector
but already has `init_signaled` set.  An INIT leaves every control-block
field exactly as it was — no state change occurs — yet the NMI-class
signal is still sent, refuting "the NMI-class signal is sent if and
only if one of these state changes occurred". -/
theorem c7_counterexample_nmi_without_state_change :
    (x86_send_init_sipi
        ⟨false, false, false, true, false, -1, false, false⟩
        .X86_INIT 0).1 =
      ⟨false, false, false, true, false, -1, false, false⟩ ∧
    (x86_send_init_sipi
        ⟨false, false, false, true, false, -1, false, false⟩
        .X86_INIT 0).2 = true := by
  decide

/-- C7 (amended): INIT performs its write (`init_signaled := true`)
exactly when `wait_for_sipi` is false, SIPI records the vector exactly
when `wait_for_sipi` is true; in the remaining cases every field is
left unchanged; the NMI-class signal is sent if and only if the guarded
write was performed — which can leave the state unchanged when the
field already held the written value. -/
theorem c7_send_init_sipi_guarded (t : PerCpu) (v : Int) :
    (t.wait_for_sipi = false →
      x86_send_init_sipi t .X86_INIT v =
        ({ t with init_signaled := true }, true)) ∧
    (t.wait_for_sipi = true →
      x86_send_init_sipi t .X86_INIT v = (t, false)) ∧
    (t.wait_for_sipi = true →
      x86_send_init_sipi t .X86_SIPI v =
        ({ t with sipi_vector := v }, true)) ∧
    (t.wait_for_sipi = false →
      x86_send_init_sipi t .X86_SIPI v = (t, false)) := by
  refine ⟨?_, ?_, ?_, ?_⟩ <;> intro h <;>
    simp [x86_send_init_sipi, h]

/-- Witness for C7 (amended) at a concrete parked target: a SIPI with
vector 5 is recorded and signalled, an INIT is ignored. -/
theorem c7_send_init_sipi_guarded_witness :
    x86_send_init_sipi ⟨false, false, false, false, true, -1, false, false⟩
        .X86_SIPI 5 =
      (⟨false, false, false, false, true, 5, false, false⟩, true) ∧
    x86_send_init_sipi ⟨false, false, false, false, true, -1, false, false⟩
        .X86_INIT 5 =
      (⟨false, false, false, false, true, -1, false, false⟩, false) :=
  ⟨(c7_send_init_sipi_guarded
      ⟨false, false, false, false, true, -1, false, false⟩ 5).2.2.1 rfl,
   (c7_send_init_sipi_guarded
      ⟨false, false, false, false, true, -1, false, false⟩ 5).2.1 rfl⟩

/-- No-interference run, INIT branch: with `init_signaled` set and no
suspend request, the call takes the first loop branch, enters
`wait_for_sipi`, and returns `-1`; the stored `sipi_vector` field is
not touched. -/
theorem heRun_init_branch (s : PerCpu) (hinit : s.init_signaled = true)
    (hsusp : s.suspend_cpu = false) :
    (heRun 3 ⟨.looptop, s, -1⟩).1 =
      ⟨.finished,
       { s with init_signaled := false, wait_for_sipi := true,
                flush_vcpu_caches := false }, -1⟩ := by
  obtain ⟨sc, cs, sd, ig, ws, sv, fl, fc⟩ := s
  cases hinit
  cases hsusp
  cases fc <;>
    simp [heRun, heLocalStep, x86_enter_wait_for_sipi]

/-- No-interference run, suspend branch with a pending vector and
`failed` clear: the wait-loop exit delivers the vector — clears
`wait_for_sipi`, resets the stored field to `-1`, returns the
vector. -/
theorem heRun_deliver (s : PerCpu) (hinit : s.init_signaled = false)
    (hsusp : s.suspend_cpu = false) (hshut : s.shutdown_cpu = false)
    (hvec : 0 ≤ s.sipi_vector) (hfail : s.failed = false) :
    (heRun 5 ⟨.looptop, s, -1⟩).1 =
      ⟨.finished,
       { s with cpu_suspended := false, wait_for_sipi := false,
                sipi_vector := -1, flush_vcpu_caches := false },
       s.sipi_vector⟩ := by
  obtain ⟨sc, cs, sd, ig, ws, sv, fl, fc⟩ := s
  cases hinit
  cases hsusp
  cases hshut
  cases hfail
  cases fc <;>
    simp [heRun, heLocalStep, x86_wait_exit, hvec]

/-- No-interference run, suspend branch with a pending vector but
`failed` set: the vector is discarded (field reset to `-1`),
`wait_for_sipi` is left as it was, and `-1` is returned. -/
theorem heRun_discard_failed (s : PerCpu) (hinit : s.init_signaled = false)
    (hsusp : s.suspend_cpu = false) (hshut : s.shutdown_cpu = false)
    (hvec : 0 ≤ s.sipi_vector) (hfail : s.failed = true) :
    (heRun 5 ⟨.looptop, s, -1⟩).1 =
      ⟨.finished,
       { s with cpu_suspended := false, sipi_vector := -1,
                flush_vcpu_caches := false }, -1⟩ := by
  obtain ⟨sc, cs, sd, ig, ws, sv, fl, fc⟩ := s
  cases hinit
  cases hsusp
  cases hshut
  cases hfail
  cases fc <;> cases ws <;>
    simp [heRun, heLocalStep, x86_wait_exit, hvec]

/-- C1 counterexample: control block with `init_signaled` set, no
suspend request, pending vector 5.  The next `x86_handle_events` call
takes the INIT branch and returns `-1`, but the stored `sipi_vector`
field still holds 5 (it is not reset to the none sentinel), and the
very next `x86_handle_events` call returns the supposedly discarded
vector 5. -/
theorem c1_counterexample_vector_not_discarded :
    ((x86_handle_events 3
        ⟨false, false, false, true, false, 5, false, false⟩).1.ph =
          Phase.finished ∧
     (x86_handle_events 3
        ⟨false, false, false, true, false, 5, false, false⟩).1.vec = -1 ∧
     (x86_handle_events 3
        ⟨false, false, false, true, false, 5, false, false⟩).1.s.sipi_vector
       = 5) ∧
    ((x86_handle_events 6
        (x86_handle_events 3
          ⟨false, false, false, true, false, 5, false, false⟩).1.s).1.ph =
          Phase.finished ∧
     (x86_handle_events 6
        (x86_handle_events 3
          ⟨false, false, false, true, false, 5, false, false⟩).1.s).1.vec
       = 5) := by
  decide

/-- C1 (amended): with `init_signaled` set and `suspend_cpu` clear, the
next `x86_handle_events` call clears `init_signaled`, sets
`wait_for_sipi`, and returns `-1` — but it leaves the stored
`sipi_vector` field unchanged, so if a vector was pending it stays
pending and (with `failed` and `shutdown_cpu` clear and no new remote
events) the following `x86_handle_events` call returns it. -/
theorem c1_init_preempts_pending_vector (s : PerCpu)
    (hinit : s.init_signaled = true) (hsusp : s.suspend_cpu = false) :
    (x86_handle_events 3 s).1 =
      ⟨.finished,
       { s with init_signaled := false, wait_for_sipi := true,
                flush_vcpu_caches := false }, -1⟩ ∧
    (0 ≤ s.sipi_vector → s.failed = false → s.shutdown_cpu = false →
      (x86_handle_events 5
          { s with init_signaled := false, wait_for_sipi := true,
                   flush_vcpu_caches := false }).1 =
        ⟨.finished,
         { s with init_signaled := false, cpu_suspended := false,
                  wait_for_sipi := false, sipi_vector := -1,
                  flush_vcpu_caches := false },
         s.sipi_vector⟩) := by
  refine ⟨heRun_init_branch s hinit hsusp, fun hv hf hsd => ?_⟩
  exact heRun_deliver
    { s with init_signaled := false, wait_for_sipi := true,
             flush_vcpu_caches := false } rfl hsusp hsd hv hf

/-- Witness for C1 (amended) at a concrete state with pending vector
7. -/
theorem c1_init_preempts_pending_vector_witness :
    (x86_handle_events 3 ⟨false, false, false, true, false, 7, false, false⟩).1 =
      ⟨.finished, ⟨false, false, false, false, true, 7, false, false⟩, -1⟩ ∧
    (x86_handle_events 5 ⟨false, false, false, false, true, 7, false, false⟩).1 =
      ⟨.finished, ⟨false, false, false, false, false, -1, false, false⟩, 7⟩ :=
  ⟨(c1_init_preempts_pending_vector
      ⟨false, false, false, true, false, 7, false, false⟩ rfl rfl).1,
   (c1_init_preempts_pending_vector
      ⟨false, false, false, true, false, 7, false, false⟩ rfl rfl).2
     (by decide) rfl rfl⟩

/-- C8: when the wait-loop exit is processed with a pending vector
(entry state: no INIT pending, no suspend request, no shutdown,
`sipi_vector ≥ 0`): if `failed` is clear the call clears
`wait_for_sipi`, returns the vector, and resets the stored field to
`-1`; if `failed` is set the field is likewise reset but
`wait_for_sipi` keeps its value and `-1` is returned. -/
theorem c8_wait_exit_vector_delivery (s : PerCpu)
    (hinit : s.init_signaled = false) (hsusp : s.suspend_cpu = false)
    (hshut : s.shutdown_cpu = false) (hvec : 0 ≤ s.sipi_vector) :
    (s.failed = false →
      (x86_handle_events 5 s).1 =
        ⟨.finished,
         { s with cpu_suspended := false, wait_for_sipi := false,
                  sipi_vector := -1, flush_vcpu_caches := false },
         s.sipi_vector⟩) ∧
    (s.failed = true →
      (x86_handle_events 5 s).1 =
        ⟨.finished,
         { s with cpu_suspended := false, sipi_vector := -1,
                  flush_vcpu_caches := false }, -1⟩) :=
  ⟨fun hf => heRun_deliver s hinit hsusp hshut hvec hf,
   fun hf => heRun_discard_failed s hinit hsusp hshut hvec hf⟩

/-- Witness for C8, both branches, at parked targets with pending
vector 9: `failed` clear delivers 9 and unparks; `failed` set discards
the vector and stays parked. -/
theorem c8_wait_exit_vector_delivery_witness :
    (x86_handle_events 5 ⟨false, false, false, false, true, 9, false, false⟩).1 =
      ⟨.finished, ⟨false, false, false, false, false, -1, false, false⟩, 9⟩ ∧
    (x86_handle_events 5 ⟨false, false, false, false, true, 9, true, false⟩).1 =
      ⟨.finished, ⟨false, false, false, false, true, -1, true, false⟩, -1⟩ :=
  ⟨(c8_wait_exit_vector_delivery
      ⟨false, false, false, false, true, 9, false, false⟩
      rfl rfl rfl (by decide)).1 rfl,
   (c8_wait_exit_vector_delivery
      ⟨false, false, false, false, true, 9, true, false⟩
      rfl rfl rfl (by decide)).2 rfl⟩

/-- The wait-loop exit step never touches `failed`, always clears
`cpu_suspended`, and leaves the local return variable alone whenever
`failed` is set. -/
theorem x86_wait_exit_fields (s : PerCpu) (v : Int) :
    (x86_wait_exit s v).1.failed = s.failed ∧
    (x86_wait_exit s v).1.cpu_suspended = false ∧
    (s.failed = true → (x86_wait_exit s v).2 = v) := by
  unfold x86_wait_exit
  by_cases hv : s.sipi_vector ≥ 0 <;> by_cases hf : s.failed <;>
    simp [hv, hf]

/-- A local step never changes `failed` (only external code sets it). -/
theorem heLocalStep_failed (c : Config) :
    ((heLocalStep c).1).s.failed = c.s.failed := by
  rcases c with ⟨ph, s, v⟩
  cases ph <;> unfold heLocalStep <;> dsimp only
  case looptop =>
    by_cases hb : (s.init_signaled && !s.suspend_cpu) = true <;>
      simp [hb, x86_enter_wait_for_sipi]
  case spinning =>
    by_cases hb : s.suspend_cpu = true <;> simp [hb]
  case spun =>
    by_cases hb : s.shutdown_cpu = true
    · simp [hb]
    · by_cases hb2 : (x86_wait_exit s v).1.init_signaled = true <;>
        simp [hb, hb2, (x86_wait_exit_fields s v).1]
  case post =>
    by_cases hb : s.flush_vcpu_caches = true <;> simp [hb]

/-- Remote lifecycle operations never change the target's `failed`,
`cpu_suspended`, or `wait_for_sipi` fields. -/
theorem applyOp_fields (op : Op) (t : PerCpu) :
    (applyOp op t).failed = t.failed ∧
    (applyOp op t).cpu_suspended = t.cpu_suspended ∧
    (applyOp op t).wait_for_sipi = t.wait_for_sipi := by
  cases op <;>
    simp only [applyOp, arch_resume_cpu, arch_reset_cpu, arch_park_cpu,
               x86_send_init_sipi] <;>
    first
      | exact ⟨rfl, rfl, rfl⟩
      | (by_cases h : t.wait_for_sipi <;> simp [h])

/-- Invariant for C2: whenever the core is marked `failed`, the local
return variable of the running (or returned) `x86_handle_events` call
is the none sentinel. -/
def VecNotFailedInv (c : Config) : Prop :=
  c.s.failed = true → c.vec = -1

/-- A local step preserves the C2 invariant. -/
theorem heLocalStep_preserves_vecNotFailed (c : Config)
    (hi : VecNotFailedInv c) : VecNotFailedInv (heLocalStep c).1 := by
  rcases c with ⟨ph, s, v⟩
  unfold VecNotFailedInv at hi ⊢
  cases ph <;> unfold heLocalStep <;> dsimp only <;> intro hf
  case looptop =>
    split_ifs at hf ⊢
    · rfl
    · exact hi hf
  case spinning =>
    split_ifs at hf ⊢ <;> exact hi hf
  case spun =>
    split_ifs at hf ⊢
    · exact hi hf
    · have hff : s.failed = true := by
        have h1 := (x86_wait_exit_fields s v).1
        dsimp only at hf
        rw [hf] at h1
        exact h1.symm
      dsimp only
      rw [(x86_wait_exit_fields s v).2.2 hff]
      exact hi hff
    · have hff : s.failed = true := by
        have h1 := (x86_wait_exit_fields s v).1
        dsimp only at hf
        rw [hf] at h1
        exact h1.symm
      dsimp only
      rw [(x86_wait_exit_fields s v).2.2 hff]
      exact hi hff
  case post =>
    split_ifs at hf ⊢ <;> exact hi hf
  case finished => exact hi hf
  case halted => exact hi hf

/-- Every system step preserves the C2 invariant. -/
theorem sysStep_preserves_vecNotFailed {c c' : Config} (h : SysStep c c')
    (hi : VecNotFailedInv c) : VecNotFailedInv c' := by
  cases h with
  | localStep hs =>
    have hc : c' = (heLocalStep c).1 := by rw [hs]
    rw [hc]
    exact heLocalStep_preserves_vecNotFailed c hi
  | remote op =>
    intro hf
    exact hi (((applyOp_fields op c.s).1).symm.trans hf)
  | reinvoke h => exact fun _ => rfl

/-- Reachability preserves the C2 invariant. -/
theorem reach_preserves_vecNotFailed {c c' : Config} (h : Reach c c')
    (hi : VecNotFailedInv c) : VecNotFailedInv c' := by
  induction h with
  | refl => exact hi
  | tail _ hstep ih => exact sysStep_preserves_vecNotFailed hstep ih

/-- The `failed` flag is constant along every system step. -/
theorem sysStep_failed_const {c c' : Config} (h : SysStep c c') :
    c'.s.failed = c.s.failed := by
  cases h with
  | localStep hs =>
    have hc : c' = (heLocalStep c).1 := by rw [hs]
    rw [hc]
    exact heLocalStep_failed c
  | remote op => exact (applyOp_fields op c.s).1
  | reinvoke h => rfl

/-- The `failed` flag is constant along reachability. -/
theorem reach_failed_const {c c' : Config} (h : Reach c c') :
    c'.s.failed = c.s.failed := by
  induction h with
  | refl => rfl
  | tail _ hstep ih => exact (sysStep_failed_const hstep).trans ih

/-- C2 counterexample: starting from an idle core that was never in
`wait_for_sipi` (the 5th field of every configuration below is
`false` throughout), a single remote `reset` records the boot
pseudo-vector and the next `x86_handle_events` call returns it (vector
256 ≥ 0) — refuting "a startup vector is returned only for a core whose
`wait_for_sipi` flag was previously set". -/
theorem c2_counterexample_reset_without_wait_for_sipi :
    SysStep
      ⟨Phase.looptop, ⟨false, false, false, false, false, -1, false, false⟩, -1⟩
      ⟨Phase.looptop, ⟨false, false, false, false, false, 256, false, false⟩, -1⟩ ∧
    SysStep
      ⟨Phase.looptop, ⟨false, false, false, false, false, 256, false, false⟩, -1⟩
      ⟨Phase.spinning, ⟨false, true, false, false, false, 256, false, false⟩, -1⟩ ∧
    SysStep
      ⟨Phase.spinning, ⟨false, true, false, false, false, 256, false, false⟩, -1⟩
      ⟨Phase.spun, ⟨false, true, false, false, false, 256, false, false⟩, -1⟩ ∧
    SysStep
      ⟨Phase.spun, ⟨false, true, false, false, false, 256, false, false⟩, -1⟩
      ⟨Phase.post, ⟨false, false, false, false, false, -1, false, false⟩, 256⟩ ∧
    SysStep
      ⟨Phase.post, ⟨false, false, false, false, false, -1, false, false⟩, 256⟩
      ⟨Phase.finished, ⟨false, false, false, false, false, -1, false, false⟩, 256⟩ ∧
    (0 : Int) ≤ 256 :=
  ⟨SysStep.remote Op.reset, SysStep.localStep rfl, SysStep.localStep rfl,
   SysStep.localStep rfl, SysStep.localStep rfl, by decide⟩

/-- C2 (amended): along every sequence of remote lifecycle operations
and local `x86_handle_events` steps, a returned startup vector (a
finished call with `vec ≥ 0`) implies the core's `failed` flag is false
— and since none of these operations ever writes `failed`, it was false
at every earlier moment of the execution as well, in particular when
the vector was recorded.  (The `wait_for_sipi` half of the original
claim fails for vectors recorded by `reset`.) -/
theorem c2_vector_only_if_not_failed (c0 c : Config)
    (h0 : c0.s.failed = true → c0.vec = -1)
    (hr : Reach c0 c) (_hfin : c.ph = Phase.finished) (hv : 0 ≤ c.vec) :
    c.s.failed = false ∧ c0.s.failed = false := by
  have hinv := reach_preserves_vecNotFailed hr h0
  have hcf : c.s.failed = false := by
    by_contra hne
    have ht : c.s.failed = true := by simpa using hne
    rw [hinv ht] at hv
    exact absurd hv (by decide)
  exact ⟨hcf, (reach_failed_const hr).symm.trans hcf⟩

/-- Witness for C2 (amended): a fresh call on a parked core with
pending vector 5 runs to completion and returns 5; the theorem yields
`failed = false` at return and at entry. -/
theorem c2_vector_only_if_not_failed_witness :
    (⟨Phase.finished, ⟨false, false, false, false, false, -1, false, false⟩,
      5⟩ : Config).s.failed = false ∧
    (⟨Phase.looptop, ⟨false, false, false, false, true, 5, false, false⟩,
      -1⟩ : Config).s.failed = false :=
  c2_vector_only_if_not_failed
    ⟨Phase.looptop, ⟨false, false, false, false, true, 5, false, false⟩, -1⟩
    ⟨Phase.finished, ⟨false, false, false, false, false, -1, false, false⟩, 5⟩
    (by decide)
    (Relation.ReflTransGen.head (SysStep.localStep rfl)
      (Relation.ReflTransGen.head (SysStep.localStep rfl)
        (Relation.ReflTransGen.head (SysStep.localStep rfl)
          (Relation.ReflTransGen.single (SysStep.localStep rfl)))))
    rfl (by decide)

/-- Once halted, a system step cannot leave the halted phase. -/
theorem sysStep_halted {c c' : Config} (h : SysStep c c')
    (hh : c.ph = Phase.halted) : c'.ph = Phase.halted := by
  cases h with
  | localStep hs =>
    have hc : c' = (heLocalStep c).1 := by rw [hs]
    rcases c with ⟨ph, s, v⟩
    dsimp only at hh
    subst hh
    rw [hc]
    rfl
  | remote op => exact hh
  | reinvoke h2 => exact absurd (hh.symm.trans h2) (by decide)

/-- Once halted, every reachable configuration is halted: the call
never returns. -/
theorem reach_halted {c c' : Config} (h : Reach c c')
    (hh : c.ph = Phase.halted) : c'.ph = Phase.halted := by
  induction h with
  | refl => exact hh
  | tail _ hstep ih => exact sysStep_halted hstep ih

/-- C9: `shutdown(target)` is exactly suspend, then the
`shutdown_cpu := true` write, then resume — visible in both the final
state and the ordered event trace; and a core whose wait loop exits
with `shutdown_cpu` set clears its local APIC, tears down its vcpu
context, halts, and never leaves the halted phase under any further
steps (so `x86_handle_events` never returns on that core). -/
theorem c9_shutdown_sequence_and_halt (t t1 : PerCpu) (e1 : List REv)
    (obs : List Bool) (c c' : Config)
    (hsus : arch_suspend_cpu t obs = some (t1, e1))
    (hspun : c.ph = Phase.spun) (hshut : c.s.shutdown_cpu = true)
    (hreach : Reach ⟨Phase.halted, c.s, c.vec⟩ c') :
    arch_shutdown_cpu t obs =
      some ({ t1 with shutdown_cpu := true, suspend_cpu := false },
            e1 ++ [.setShutdownFlag] ++ [.memBarrier, .clearSuspendFlag]) ∧
    heLocalStep c = (⟨Phase.halted, c.s, c.vec⟩,
                     [.apicClear, .vcpuExitCall, .hltForever]) ∧
    c'.ph = Phase.halted := by
  refine ⟨?_, ?_, reach_halted hreach rfl⟩
  · unfold arch_shutdown_cpu
    rw [hsus]
    rfl
  · rcases c with ⟨ph, s, v⟩
    dsimp only at hspun hshut
    subst hspun
    unfold heLocalStep
    dsimp only
    rw [if_pos hshut]

/-- Witness for C9: shutting down an idle core whose `cpu_suspended`
becomes observable immediately, then the target's halt step from the
wait-loop exit. -/
theorem c9_shutdown_sequence_and_halt_witness :
    arch_shutdown_cpu ⟨false, false, false, false, false, -1, false, false⟩
        [true] =
      some (⟨false, false, true, false, false, -1, false, false⟩,
            [.lockSetSuspendFlag, .nmiIpi, .spinSawSuspended,
             .setShutdownFlag, .memBarrier, .clearSuspendFlag]) ∧
    heLocalStep
        ⟨Phase.spun, ⟨false, false, true, false, false, -1, false, false⟩, -1⟩ =
      (⟨Phase.halted, ⟨false, false, true, false, false, -1, false, false⟩, -1⟩,
       [.apicClear, .vcpuExitCall, .hltForever]) ∧
    (⟨Phase.halted, ⟨false, false, true, false, false, -1, false, false⟩,
      -1⟩ : Config).ph = Phase.halted :=
  c9_shutdown_sequence_and_halt
    ⟨false, false, false, false, false, -1, false, false⟩
    ⟨true, false, false, false, false, -1, false, false⟩
    [.lockSetSuspendFlag, .nmiIpi, .spinSawSuspended]
    [true]
    ⟨Phase.spun, ⟨false, false, true, false, false, -1, false, false⟩, -1⟩
    ⟨Phase.halted, ⟨false, false, true, false, false, -1, false, false⟩, -1⟩
    (by decide) rfl rfl Relation.ReflTransGen.refl

/-- C10 counterexample: an entry state whose `cpu_suspended` is already
(spuriously) true and that takes the INIT fast path.  The call returns
(`finished`) without ever touching `cpu_suspended`, so the core is
still published as suspended — refuting the claim for arbitrary initial
control-block states. -/
theorem c10_counterexample_init_branch_returns_suspended :
    (x86_handle_events 3
        ⟨false, true, false, true, false, -1, false, false⟩).1.ph =
      Phase.finished ∧
    (x86_handle_events 3
        ⟨false, true, false, true, false, -1, false, false⟩).1.s.cpu_suspended
      = true := by
  decide

/-- Invariant for C10: away from the busy-wait (and the halt path),
the core is not published as suspended. -/
def NotSuspendedInv (c : Config) : Prop :=
  (c.ph = Phase.looptop ∨ c.ph = Phase.post ∨ c.ph = Phase.finished) →
    c.s.cpu_suspended = false

/-- A local step preserves the C10 invariant: `cpu_suspended` is set
only on entry to the busy-wait and cleared by the wait-loop exit before
any loop exit. -/
theorem heLocalStep_preserves_notSuspended (c : Config)
    (hi : NotSuspendedInv c) : NotSuspendedInv (heLocalStep c).1 := by
  rcases c with ⟨ph, s, v⟩
  unfold NotSuspendedInv at hi ⊢
  cases ph <;> unfold heLocalStep <;> dsimp only <;> intro hmem
  case looptop =>
    split_ifs at hmem ⊢
    · exact hi (Or.inl rfl)
    · rcases hmem with h | h | h <;> exact absurd h (by decide)
  case spinning =>
    split_ifs at hmem ⊢ <;>
      rcases hmem with h | h | h <;> exact absurd h (by decide)
  case spun =>
    split_ifs at hmem ⊢
    · rcases hmem with h | h | h <;> exact absurd h (by decide)
    · exact (x86_wait_exit_fields s v).2.1
    · exact (x86_wait_exit_fields s v).2.1
  case post =>
    split_ifs at hmem ⊢
    · exact hi (Or.inr (Or.inl rfl))
    · exact hi (Or.inr (Or.inl rfl))
  case finished => exact hi hmem
  case halted => rcases hmem with h | h | h <;> exact absurd h (by decide)

/-- Every system step preserves the C10 invariant (remote operations
never write `cpu_suspended`). -/
theorem sysStep_preserves_notSuspended {c c' : Config} (h : SysStep c c')
    (hi : NotSuspendedInv c) : NotSuspendedInv c' := by
  cases h with
  | localStep hs =>
    have hc : c' = (heLocalStep c).1 := by rw [hs]
    rw [hc]
    exact heLocalStep_preserves_notSuspended c hi
  | remote op =>
    intro hmem
    rw [(applyOp_fields op c.s).2.1]
    exact hi hmem
  | reinvoke h2 =>
    intro _
    exact hi (Or.inr (Or.inr h2))

/-- Reachability preserves the C10 invariant. -/
theorem reach_preserves_notSuspended {c c' : Config} (h : Reach c c')
    (hi : NotSuspendedInv c) : NotSuspendedInv c' := by
  induction h with
  | refl => exact hi
  | tail _ hstep ih => exact sysStep_preserves_notSuspended hstep ih

/-- C10 (amended): for every `x86_handle_events` call entered with
`cpu_suspended` false (which the protocol guarantees: the flag is true
only while the core sits in the busy-wait), every reachable return —
under arbitrary interleaving with remote lifecycle operations and
further calls — leaves `cpu_suspended` false. -/
theorem c10_return_not_suspended (c0 c : Config)
    (_hph : c0.ph = Phase.looptop) (hcs : c0.s.cpu_suspended = false)
    (hr : Reach c0 c) (hfin : c.ph = Phase.finished) :
    c.s.cpu_suspended = false := by
  have h0 : NotSuspendedInv c0 := fun _ => hcs
  exact (reach_preserves_notSuspended hr h0) (Or.inr (Or.inr hfin))

/-- Witness for C10 (amended): a full idle pass of the state machine
(no pending events) returns with `cpu_suspended` false. -/
theorem c10_return_not_suspended_witness :
    (⟨Phase.finished, ⟨false, false, false, false, false, -1, false, false⟩,
      -1⟩ : Config).s.cpu_suspended = false :=
  c10_return_not_suspended
    ⟨Phase.looptop, ⟨false, false, false, false, false, -1, false, false⟩, -1⟩
    ⟨Phase.finished, ⟨false, false, false, false, false, -1, false, false⟩, -1⟩
    rfl rfl
    (Relation.ReflTransGen.head (SysStep.localStep rfl)
      (Relation.ReflTransGen.head (SysStep.localStep rfl)
        (Relation.ReflTransGen.head (SysStep.localStep rfl)
          (Relation.ReflTransGen.single (SysStep.localStep rfl)))))
    rfl

/-- Witness for C6 on a concrete system: root cell owns CPUs 0,1,2,
the changed (non-root) cell owns CPU 3, the caller is CPU 0.  CPU 1
gets marked for a flush; the caller's block is untouched. -/
theorem c6_config_commit_marks_and_notifies_witness :
    ((arch_config_commit ⟨0, [0, 1, 2], 0⟩ (some ⟨5, [3], 0⟩) 0
        (fun _ => ⟨false, false, false, false, false, -1, false, false⟩)).1 1).flush_vcpu_caches
      = true ∧
    (arch_config_commit ⟨0, [0, 1, 2], 0⟩ (some ⟨5, [3], 0⟩) 0
        (fun _ => ⟨false, false, false, false, false, -1, false, false⟩)).1 0 =
      ⟨false, false, false, false, false, -1, false, false⟩ :=
  ⟨((c6_config_commit_marks_and_notifies ⟨0, [0, 1, 2], 0⟩ (some ⟨5, [3], 0⟩) 0
      (fun _ => ⟨false, false, false, false, false, -1, false, false⟩) 1).1.1).mpr
     (Or.inr ⟨by decide, Or.inl (by decide)⟩),
   (c6_config_commit_marks_and_notifies ⟨0, [0, 1, 2], 0⟩ (some ⟨5, [3], 0⟩) 0
      (fun _ => ⟨false, false, false, false, false, -1, false, false⟩) 0).1.2.2⟩
